import Mathlib

/-!
Shallow embedding of the field-detection engine of the esign repository
(`apps/backend/app/services/detection/detector.py`).  Coordinates and
confidence scores are modelled by exact rationals; the PDF library calls
(text extraction, vector drawing enumeration, regex matching and substring
search) are abstracted as per-page input data carried by a `Page` value,
and every detector function is translated line by line from the source.
-/

set_option allowUnsafeReducibility true

attribute [semireducible] Rat.ofScientific Rat.mul Rat.inv Rat.add Rat.sub Rat.div

namespace Esign

/-- String lowercasing as used by the detector (`str.lower()` on the ASCII
keyword material): lowercase every character. -/
def lowerStr (s : String) : String := ⟨s.data.map Char.toLower⟩

/-- Auxiliary for substring containment: does the second list start with the
first one? -/
def startsWithL : List Char → List Char → Bool
  | [], _ => true
  | _ :: _, [] => false
  | a :: as, b :: bs => a == b && startsWithL as bs

/-- Substring containment on character lists (Python's `needle in hay`). -/
def subListIn (needle : List Char) : List Char → Bool
  | [] => needle.isEmpty
  | b :: bs => startsWithL needle (b :: bs) || subListIn needle bs

/-- Python's `needle in hay` substring test on strings. -/
def strIn (needle hay : String) : Bool := subListIn needle.data hay.data

/-- Python's `str.strip()`: drop whitespace from both ends. -/
def stripStr (s : String) : String :=
  ⟨((s.data.dropWhile Char.isWhitespace).reverse.dropWhile Char.isWhitespace).reverse⟩

/-- `FieldType` enumeration from `app/models/models.py`. -/
inductive FieldType where
  | TEXT
  | NAME
  | EMAIL
  | DATE_SIGNED
  | CHECKBOX
  | SIGNATURE
  | INITIALS
deriving DecidableEq, Repr

/-- Deprecated `FieldOwner` enumeration from `app/models/models.py`. -/
inductive FieldOwner where
  | SENDER
  | SIGNER_1
  | SIGNER_2
deriving DecidableEq, Repr

/-- `AssigneeType` enumeration from `app/models/models.py`. -/
inductive AssigneeType where
  | SENDER
  | ROLE
deriving DecidableEq, Repr

/-- Bounding box in PDF coordinates (`BBox` dataclass). -/
structure BBox where
  x : ℚ
  y : ℚ
  width : ℚ
  height : ℚ
deriving DecidableEq, Repr

/-- A detected field candidate (`DetectedField` dataclass); the default
values mirror the dataclass defaults. -/
structure DetectedField where
  pageNumber : Nat
  bbox : BBox
  fieldType : FieldType
  owner : Option FieldOwner := none
  assigneeType : AssigneeType := AssigneeType.ROLE
  detectedRoleKey : Option String := none
  detectionConfidence : ℚ := 1/2
  classificationConfidence : ℚ := 1/2
  ownerConfidence : ℚ := 1/2
  roleConfidence : ℚ := 1/2
  evidence : String := ""
  label : Option String := none
  nearbyText : Option String := none
deriving DecidableEq, Repr

/-- Result of field detection (`DetectionResult` dataclass). -/
structure DetectionResult where
  documentId : String
  detectedFields : List DetectedField
  detectionTimeMs : ℚ
  totalCandidates : Nat
  filteredCandidates : Nat
deriving DecidableEq, Repr

/-- `FieldDetector.SIGNATURE_KEYWORDS`. -/
def SIGNATURE_KEYWORDS : List String :=
  ["signature", "sign here", "authorized signature",
   "client signature", "employee signature", "contractor signature",
   "landlord signature", "tenant signature", "buyer signature",
   "seller signature", "witness signature"]

/-- `FieldDetector.DATE_KEYWORDS`. -/
def DATE_KEYWORDS : List String :=
  ["date", "dated", "date signed", "effective date",
   "start date", "end date", "as of"]

/-- `FieldDetector.NAME_KEYWORDS`. -/
def NAME_KEYWORDS : List String :=
  ["name", "print name", "printed name", "full name",
   "client name", "employee name", "contractor name",
   "landlord", "tenant", "buyer", "seller"]

/-- `FieldDetector.EMAIL_KEYWORDS`. -/
def EMAIL_KEYWORDS : List String := ["email", "e-mail", "email address"]

/-- `FieldDetector.INITIALS_KEYWORDS`. -/
def INITIALS_KEYWORDS : List String := ["initials", "initial here", "initial"]

/-- `FieldDetector.ROLE_KEYWORDS`, in dictionary insertion order. -/
def ROLE_KEYWORDS : List (String × List String) :=
  [("client", ["client", "customer", "buyer", "purchaser", "party a", "first party"]),
   ("contractor", ["contractor", "consultant", "freelancer", "vendor"]),
   ("employee", ["employee", "worker", "staff", "team member"]),
   ("company", ["company", "employer", "corporation", "business", "party b", "second party"]),
   ("landlord", ["landlord", "lessor", "property owner", "owner"]),
   ("tenant", ["tenant", "renter", "lessee", "occupant"]),
   ("seller", ["seller", "vendor"]),
   ("borrower", ["borrower", "debtor"]),
   ("lender", ["lender", "creditor", "bank"]),
   ("witness", ["witness"]),
   ("guarantor", ["guarantor", "co-signer", "cosigner"])]

/-- `FieldDetector.LEGACY_ROLE_MAP`. -/
def LEGACY_ROLE_MAP : List (String × FieldOwner) :=
  [("client", FieldOwner.SIGNER_1),
   ("employee", FieldOwner.SIGNER_1),
   ("contractor", FieldOwner.SIGNER_1),
   ("tenant", FieldOwner.SIGNER_1),
   ("buyer", FieldOwner.SIGNER_1),
   ("borrower", FieldOwner.SIGNER_1),
   ("company", FieldOwner.SIGNER_2),
   ("employer", FieldOwner.SIGNER_2),
   ("landlord", FieldOwner.SIGNER_2),
   ("seller", FieldOwner.SIGNER_2),
   ("lender", FieldOwner.SIGNER_2),
   ("witness", FieldOwner.SIGNER_2),
   ("guarantor", FieldOwner.SIGNER_2)]

/-- `FieldDetector._infer_role_from_text`: first role whose keyword list has a
match in the lowercased text wins with confidence 0.7, else `("signer", 0.3)`. -/
def inferRoleFromText (text : String) : String × ℚ :=
  let textLower := lowerStr text
  match ROLE_KEYWORDS.find? (fun p => p.2.any (fun keyword => strIn keyword textLower)) with
  | some p => (p.1, 7/10)
  | none => ("signer", 3/10)

/-- `FieldDetector._role_to_legacy_owner`: `LEGACY_ROLE_MAP.get(role_key, SIGNER_1)`. -/
def roleToLegacyOwner (roleKey : String) : FieldOwner :=
  ((LEGACY_ROLE_MAP.find? (fun p => p.1 == roleKey)).map Prod.snd).getD FieldOwner.SIGNER_1

/-- `FieldDetector._infer_owner_from_text`. -/
def inferOwnerFromText (text : String) : FieldOwner :=
  roleToLegacyOwner (inferRoleFromText text).1

/-- The field-type part of `FieldDetector._classify_by_label`: ordered keyword
scan over the lowercased label, first matching category wins, else `TEXT`. -/
def classifyTypeByLabel (labelLower : String) : FieldType :=
  if SIGNATURE_KEYWORDS.any (fun keyword => strIn keyword labelLower) then FieldType.SIGNATURE
  else if DATE_KEYWORDS.any (fun keyword => strIn keyword labelLower) then FieldType.DATE_SIGNED
  else if NAME_KEYWORDS.any (fun keyword => strIn keyword labelLower) then FieldType.NAME
  else if EMAIL_KEYWORDS.any (fun keyword => strIn keyword labelLower) then FieldType.EMAIL
  else if INITIALS_KEYWORDS.any (fun keyword => strIn keyword labelLower) then FieldType.INITIALS
  else FieldType.TEXT

/-- `FieldDetector._classify_by_label`. -/
def classifyByLabel (label : String) : FieldType × FieldOwner :=
  let labelLower := lowerStr label
  (classifyTypeByLabel labelLower, inferOwnerFromText labelLower)

/-- A 2-D point of a vector drawing primitive. -/
structure Point where
  x : ℚ
  y : ℚ
deriving DecidableEq, Repr

/-- A PDF library rectangle `(x0, y0, x1, y1)`, as returned by widget rects,
path rects and substring search. -/
structure Rect where
  x0 : ℚ
  y0 : ℚ
  x1 : ℚ
  y1 : ℚ
deriving DecidableEq, Repr

/-- Rectangle width, as exposed by the PDF library. -/
def Rect.width (r : Rect) : ℚ := r.x1 - r.x0

/-- Rectangle height, as exposed by the PDF library. -/
def Rect.height (r : Rect) : ℚ := r.y1 - r.y0

/-- A word of the extracted page layout (`layout["words"]` entry). -/
structure LayoutWord where
  text : String
  bbox : BBox
deriving DecidableEq, Repr

/-- A line of the extracted page layout (`layout["lines"]` entry). -/
structure LayoutLine where
  text : String
  bbox : BBox
deriving DecidableEq, Repr

/-- Normalized page layout (`_extract_page_layout` output or the caller's
pre-extracted layout for the page). -/
structure PageLayout where
  lines : List LayoutLine
  words : List LayoutWord
deriving DecidableEq, Repr

/-- A regex match of an anchor-tag pattern with two groups: `full` is
`match.group(0)`, `g1` and `g2` the two captured groups. -/
structure AnchorMatch where
  full : String
  g1 : String
  g2 : String
deriving DecidableEq, Repr

/-- A regex match of the sender-variable pattern: `full` is `match.group(0)`,
`g1` the variable name. -/
structure VarMatch where
  full : String
  g1 : String
deriving DecidableEq, Repr

/-- Per-page input data of the detector.  The PDF library calls made by the
source (`get_drawings`, `widgets`, `get_text`, `search_for`, `re.finditer`)
are abstracted as data carried by the page. -/
structure Page where
  layout : Option PageLayout
  lineItems : List (Point × Point)
  checkboxWidgets : List Rect
  pathRects : List (Option Rect)
  text : String
  searchResults : List (String × List Rect)
  newAnchorMatches : List AnchorMatch
  legacyAnchorMatches : List AnchorMatch
  varMatches : List VarMatch
deriving DecidableEq, Repr

/-- `page.search_for(s)`: rectangles of every match of `s` on the page. -/
def searchFor (page : Page) (s : String) : List Rect :=
  ((page.searchResults.find? (fun p => p.1 == s)).map Prod.snd).getD []

/-- `FieldDetector._find_nearby_label`: nearest word above-or-left of the
field within Manhattan distance 100, together with its classification. -/
def findNearbyLabel (pageLayout : Option PageLayout) (x y width : ℚ) :
    Option String × FieldType × FieldOwner :=
  match pageLayout with
  | none => (none, FieldType.TEXT, FieldOwner.SIGNER_1)
  | some layout =>
    let best := layout.words.foldl
      (fun (best : Option (String × ℚ)) word =>
        let wordX := word.bbox.x
        let wordY := word.bbox.y
        if wordY ≤ y && wordX ≤ x + width then
          let distance := |y - wordY| + |x - wordX|
          if (match best with
              | none => true
              | some b => decide (distance < b.2)) && decide (distance < 100) then
            some (word.text, distance)
          else best
        else best) none
    match best with
    | some b =>
      if b.1.isEmpty then (none, FieldType.TEXT, FieldOwner.SIGNER_1)
      else
        let tf := classifyByLabel b.1
        (some b.1, tf.1, tf.2)
    | none => (none, FieldType.TEXT, FieldOwner.SIGNER_1)

/-- Candidate emission for one vector line primitive of
`FieldDetector._detect_underlines`: a horizontal line longer than 50 pt
becomes a 20 pt tall candidate shifted 15 pt above the line. -/
def underlineVectorCandidate (pageNumber : Nat) (pageLayout : Option PageLayout)
    (start e : Point) : List DetectedField :=
  if |start.y - e.y| < 2 then
    let lineWidth := |e.x - start.x|
    let lineY := start.y
    if 50 < lineWidth then
      let found := findNearbyLabel pageLayout start.x lineY lineWidth
      let nearbyText := found.1
      let confidence : ℚ := if nearbyText.isSome then 7/10 else 1/2
      [{ pageNumber := pageNumber,
         bbox := ⟨min start.x e.x, lineY - 15, lineWidth, 20⟩,
         fieldType := found.2.1,
         owner := some found.2.2,
         detectionConfidence := confidence,
         classificationConfidence := if nearbyText.isSome then 3/5 else 2/5,
         ownerConfidence := 1/2,
         evidence := match nearbyText with
           | some t => "Underline detected with nearby text: '" ++ t ++ "'"
           | none => "Underline detected (no label)",
         label := nearbyText,
         nearbyText := nearbyText }]
    else []
  else []

/-- Index of the first run of at least three underscores
(`re.search(r'_\x7b3,\x7d', text).start()`). -/
def underscoreRunStart : List Char → Nat → Option Nat
  | '_' :: '_' :: '_' :: _, i => some i
  | _ :: rest, i => underscoreRunStart rest (i + 1)
  | [], _ => none

/-- Candidate emission for one layout line of the underscore-blank part of
`FieldDetector._detect_underlines`. -/
def underscoreCandidate (pageNumber : Nat) (line : LayoutLine) : List DetectedField :=
  match underscoreRunStart line.text.data 0 with
  | none => []
  | some i =>
    let labelText := stripStr ⟨line.text.data.take i⟩
    let tf := classifyByLabel labelText
    [{ pageNumber := pageNumber,
       bbox := ⟨line.bbox.x, line.bbox.y, line.bbox.width, line.bbox.height⟩,
       fieldType := tf.1,
       owner := some tf.2,
       detectionConfidence := 4/5,
       classificationConfidence := if labelText.isEmpty then 1/2 else 7/10,
       ownerConfidence := 1/2,
       evidence := if labelText.isEmpty then "Underscore blank detected"
         else "Underscore blank with label: '" ++ labelText ++ "'",
       label := if labelText.isEmpty then none else some labelText,
       nearbyText := if labelText.isEmpty then none else some labelText }]

/-- `FieldDetector._detect_underlines`: vector underlines then underscore
blanks. -/
def detectUnderlines (pageNumber : Nat) (page : Page) : List DetectedField :=
  (page.lineItems.flatMap (fun item => underlineVectorCandidate pageNumber page.layout item.1 item.2))
    ++ (match page.layout with
        | none => []
        | some layout => layout.lines.flatMap (underscoreCandidate pageNumber))

/-- The Unicode checkbox characters scanned by `_detect_checkboxes`. -/
def CHECKBOX_CHARS : List String := ["☐", "☑", "☒", "□", "▢", "▣"]

/-- The candidate built for one interactive checkbox widget in
`_detect_checkboxes`. -/
def checkboxWidgetCandidate (pageNumber : Nat) (rect : Rect) : DetectedField :=
  { pageNumber := pageNumber,
    bbox := ⟨rect.x0, rect.y0, rect.width, rect.height⟩,
    fieldType := FieldType.CHECKBOX,
    owner := some FieldOwner.SIGNER_1,
    detectionConfidence := 19/20,
    classificationConfidence := 19/20,
    ownerConfidence := 1/2,
    evidence := "PDF checkbox widget detected" }

/-- The candidates for one drawing path rect in `_detect_checkboxes`: a small
square becomes a checkbox candidate. -/
def checkboxRectCandidates (pageNumber : Nat) (orect : Option Rect) : List DetectedField :=
  match orect with
  | none => []
  | some rect =>
    if 8 ≤ rect.width && rect.width ≤ 25 && 8 ≤ rect.height && rect.height ≤ 25
        && |rect.width - rect.height| < 5 then
      [{ pageNumber := pageNumber,
         bbox := ⟨rect.x0, rect.y0, rect.width, rect.height⟩,
         fieldType := FieldType.CHECKBOX,
         owner := some FieldOwner.SIGNER_1,
         detectionConfidence := 7/10,
         classificationConfidence := 4/5,
         ownerConfidence := 1/2,
         evidence := "Small square shape detected (potential checkbox)" }]
    else []

/-- The candidates for one Unicode checkbox glyph in `_detect_checkboxes`:
when the glyph occurs in the page text, one candidate per search hit. -/
def checkboxGlyphCandidates (pageNumber : Nat) (page : Page) (ch : String) : List DetectedField :=
  if strIn ch page.text then
    (searchFor page ch).map (fun inst =>
      { pageNumber := pageNumber,
        bbox := ⟨inst.x0, inst.y0, inst.width + 5, inst.height + 5⟩,
        fieldType := FieldType.CHECKBOX,
        owner := some FieldOwner.SIGNER_1,
        detectionConfidence := 9/10,
        classificationConfidence := 19/20,
        ownerConfidence := 1/2,
        evidence := "Checkbox character '" ++ ch ++ "' detected" })
  else []

/-- `FieldDetector._detect_checkboxes`: interactive checkbox widgets, small
square vector rectangles, then Unicode checkbox glyphs. -/
def detectCheckboxes (pageNumber : Nat) (page : Page) : List DetectedField :=
  (page.checkboxWidgets.map (checkboxWidgetCandidate pageNumber))
  ++ (page.pathRects.flatMap (checkboxRectCandidates pageNumber))
  ++ (CHECKBOX_CHARS.flatMap (checkboxGlyphCandidates pageNumber page))

/-- The signature-keyword loop of `_detect_signature_areas` for one line:
the first matching signature keyword emits one candidate. -/
def sigKeywordCandidates (pageNumber : Nat) (line : LayoutLine) : List DetectedField :=
  let text := lowerStr line.text
  let bbox := line.bbox
  match SIGNATURE_KEYWORDS.find? (fun keyword => strIn keyword text) with
  | none => []
  | some keyword =>
    let rr := inferRoleFromText text
    [{ pageNumber := pageNumber,
       bbox := ⟨bbox.x + bbox.width + 10, bbox.y, 150, 40⟩,
       fieldType := FieldType.SIGNATURE,
       owner := some (roleToLegacyOwner rr.1),
       assigneeType := AssigneeType.ROLE,
       detectedRoleKey := some rr.1,
       detectionConfidence := 4/5,
       classificationConfidence := 9/10,
       ownerConfidence := rr.2,
       roleConfidence := rr.2,
       evidence := "Signature keyword '" ++ keyword ++ "' detected (inferred role: " ++ rr.1 ++ ")",
       label := some (stripStr text),
       nearbyText := some (stripStr text) }]

/-- The date-keyword loop of `_detect_signature_areas` for one line: the
first date keyword matching a line that does not contain `signature` emits
one candidate. -/
def dateKeywordCandidates (pageNumber : Nat) (line : LayoutLine) : List DetectedField :=
  let text := lowerStr line.text
  let bbox := line.bbox
  match DATE_KEYWORDS.find? (fun keyword => strIn keyword text && !(strIn "signature" text)) with
  | none => []
  | some keyword =>
    let rr := inferRoleFromText text
    [{ pageNumber := pageNumber,
       bbox := ⟨bbox.x + bbox.width + 10, bbox.y, 100, 20⟩,
       fieldType := FieldType.DATE_SIGNED,
       owner := some (roleToLegacyOwner rr.1),
       assigneeType := AssigneeType.ROLE,
       detectedRoleKey := some rr.1,
       detectionConfidence := 3/4,
       classificationConfidence := 17/20,
       ownerConfidence := rr.2,
       roleConfidence := rr.2,
       evidence := "Date keyword '" ++ keyword ++ "' detected (inferred role: " ++ rr.1 ++ ")",
       label := some (stripStr text),
       nearbyText := some (stripStr text) }]

/-- The initials-keyword loop of `_detect_signature_areas` for one line: the
first matching initials keyword emits one candidate. -/
def initialsKeywordCandidates (pageNumber : Nat) (line : LayoutLine) : List DetectedField :=
  let text := lowerStr line.text
  let bbox := line.bbox
  match INITIALS_KEYWORDS.find? (fun keyword => strIn keyword text) with
  | none => []
  | some keyword =>
    let rr := inferRoleFromText text
    [{ pageNumber := pageNumber,
       bbox := ⟨bbox.x + bbox.width + 10, bbox.y, 60, 30⟩,
       fieldType := FieldType.INITIALS,
       owner := some (roleToLegacyOwner rr.1),
       assigneeType := AssigneeType.ROLE,
       detectedRoleKey := some rr.1,
       detectionConfidence := 4/5,
       classificationConfidence := 17/20,
       ownerConfidence := rr.2,
       roleConfidence := rr.2,
       evidence := "Initials keyword '" ++ keyword ++ "' detected (inferred role: " ++ rr.1 ++ ")",
       label := some (stripStr text),
       nearbyText := some (stripStr text) }]

/-- Per-line candidate emission of `FieldDetector._detect_signature_areas`:
three independent keyword scans (signature, date, initials) over the
lowercased line text, each with its own first-keyword-wins loop. -/
def detectSignatureAreasLine (pageNumber : Nat) (line : LayoutLine) : List DetectedField :=
  sigKeywordCandidates pageNumber line
    ++ dateKeywordCandidates pageNumber line
    ++ initialsKeywordCandidates pageNumber line

/-- `FieldDetector._detect_signature_areas`. -/
def detectSignatureAreas (pageNumber : Nat) (page : Page) : List DetectedField :=
  match page.layout with
  | none => []
  | some layout => layout.lines.flatMap (detectSignatureAreasLine pageNumber)

/-- The local `type_map` of `_detect_anchor_tags`, mapping a lowercased field
code to its field type. -/
def typeMap : List (String × FieldType) :=
  [("sig", FieldType.SIGNATURE),
   ("signature", FieldType.SIGNATURE),
   ("init", FieldType.INITIALS),
   ("initials", FieldType.INITIALS),
   ("date", FieldType.DATE_SIGNED),
   ("text", FieldType.TEXT),
   ("name", FieldType.NAME),
   ("email", FieldType.EMAIL),
   ("check", FieldType.CHECKBOX),
   ("checkbox", FieldType.CHECKBOX)]

/-- `type_map.get(field_code, FieldType.TEXT)`. -/
def typeMapGet (fieldCode : String) : FieldType :=
  ((typeMap.find? (fun p => p.1 == fieldCode)).map Prod.snd).getD FieldType.TEXT

/-- The candidate built for one match of the new role-anchor pattern
`\[(\w+)\|role:(\w+)\]` whose rendered position `rect` was found. -/
def newAnchorCandidate (pageNumber : Nat) (m : AnchorMatch) (rect : Rect) : DetectedField :=
  let fieldCode := lowerStr m.g1
  let roleKey := lowerStr m.g2
  let fieldType := typeMapGet fieldCode
  let width : ℚ := if fieldType = FieldType.SIGNATURE then 150
    else if fieldType = FieldType.NAME then 100 else 80
  let height : ℚ := if fieldType = FieldType.SIGNATURE ∨ fieldType = FieldType.INITIALS then 40 else 20
  { pageNumber := pageNumber,
    bbox := ⟨rect.x0, rect.y0, width, height⟩,
    fieldType := fieldType,
    owner := some (roleToLegacyOwner roleKey),
    assigneeType := AssigneeType.ROLE,
    detectedRoleKey := some roleKey,
    detectionConfidence := 19/20,
    classificationConfidence := 19/20,
    ownerConfidence := 19/20,
    roleConfidence := 19/20,
    evidence := "Anchor tag '" ++ m.full ++ "' detected (role: " ++ roleKey ++ ")",
    label := some m.full }

/-- The local `legacy_role_map` of `_detect_anchor_tags`, mapping a legacy
role code to `(role_key, owner)`. -/
def legacyRoleMap : List (String × (Option String × FieldOwner)) :=
  [("signer1", (some "signer_1", FieldOwner.SIGNER_1)),
   ("signer_1", (some "signer_1", FieldOwner.SIGNER_1)),
   ("s1", (some "signer_1", FieldOwner.SIGNER_1)),
   ("signer2", (some "signer_2", FieldOwner.SIGNER_2)),
   ("signer_2", (some "signer_2", FieldOwner.SIGNER_2)),
   ("s2", (some "signer_2", FieldOwner.SIGNER_2)),
   ("sender", (none, FieldOwner.SENDER))]

/-- `legacy_role_map.get(role_code, ("signer_1", FieldOwner.SIGNER_1))`. -/
def legacyRoleMapGet (roleCode : String) : Option String × FieldOwner :=
  ((legacyRoleMap.find? (fun p => p.1 == roleCode)).map Prod.snd).getD
    (some "signer_1", FieldOwner.SIGNER_1)

/-- The candidate built for one match of the legacy anchor pattern
`\[(\w+)\|(\w+)\]` whose rendered position `rect` was found. -/
def legacyAnchorCandidate (pageNumber : Nat) (m : AnchorMatch) (rect : Rect) : DetectedField :=
  let fieldCode := lowerStr m.g1
  let roleCode := lowerStr m.g2
  let fieldType := typeMapGet fieldCode
  let rk := legacyRoleMapGet roleCode
  let assigneeType := if rk.2 = FieldOwner.SENDER then AssigneeType.SENDER else AssigneeType.ROLE
  let width : ℚ := if fieldType = FieldType.SIGNATURE then 150
    else if fieldType = FieldType.NAME then 100 else 80
  let height : ℚ := if fieldType = FieldType.SIGNATURE ∨ fieldType = FieldType.INITIALS then 40 else 20
  { pageNumber := pageNumber,
    bbox := ⟨rect.x0, rect.y0, width, height⟩,
    fieldType := fieldType,
    owner := some rk.2,
    assigneeType := assigneeType,
    detectedRoleKey := rk.1,
    detectionConfidence := 19/20,
    classificationConfidence := 19/20,
    ownerConfidence := 19/20,
    roleConfidence := 19/20,
    evidence := "Anchor tag '" ++ m.full ++ "' detected",
    label := some m.full }

/-- The candidate built for one match of the sender-variable pattern
`\{\{(\w+)\}\}` whose rendered position `rect` was found. -/
def varCandidate (pageNumber : Nat) (m : VarMatch) (rect : Rect) : DetectedField :=
  { pageNumber := pageNumber,
    bbox := ⟨rect.x0, rect.y0, 100, 20⟩,
    fieldType := FieldType.TEXT,
    owner := some FieldOwner.SENDER,
    assigneeType := AssigneeType.SENDER,
    detectedRoleKey := none,
    detectionConfidence := 19/20,
    classificationConfidence := 9/10,
    ownerConfidence := 19/20,
    roleConfidence := 19/20,
    evidence := "Sender variable tag '\x7b\x7b" ++ m.g1 ++ "\x7d\x7d' detected",
    label := some m.g1 }

/-- Emission for one new role-anchor match: skipped when the page search
finds no rendered position. -/
def newAnchorEmission (pageNumber : Nat) (page : Page) (m : AnchorMatch) : List DetectedField :=
  match (searchFor page m.full).head? with
  | none => []
  | some rect => [newAnchorCandidate pageNumber m rect]

/-- Emission for one legacy anchor match: skipped when the match text
contains `role:` (already handled by the new pattern) or when the page
search finds no rendered position. -/
def legacyAnchorEmission (pageNumber : Nat) (page : Page) (m : AnchorMatch) : List DetectedField :=
  if strIn ":role:" (lowerStr m.full) || strIn "role:" (lowerStr m.full) then []
  else match (searchFor page m.full).head? with
  | none => []
  | some rect => [legacyAnchorCandidate pageNumber m rect]

/-- Emission for one sender-variable match: skipped when the page search
finds no rendered position. -/
def varEmission (pageNumber : Nat) (page : Page) (m : VarMatch) : List DetectedField :=
  match (searchFor page m.full).head? with
  | none => []
  | some rect => [varCandidate pageNumber m rect]

/-- `FieldDetector._detect_anchor_tags`: new role anchors, legacy anchors
(skipping any match whose text contains `role:`), then sender variables. -/
def detectAnchorTags (pageNumber : Nat) (page : Page) : List DetectedField :=
  (page.newAnchorMatches.flatMap (newAnchorEmission pageNumber page))
    ++ (page.legacyAnchorMatches.flatMap (legacyAnchorEmission pageNumber page))
    ++ (page.varMatches.flatMap (varEmission pageNumber page))

/-- All candidates of one page, strategies in source order. -/
def pageCandidates (pageNumber : Nat) (page : Page) : List DetectedField :=
  detectUnderlines pageNumber page
    ++ detectCheckboxes pageNumber page
    ++ detectSignatureAreas pageNumber page
    ++ detectAnchorTags pageNumber page

/-- The raw candidate list of `detect_fields` before deduplication:
pages in order, `page_number = page_num + 1`. -/
def allCandidatesOf (pages : List Page) : List DetectedField :=
  pages.enum.flatMap (fun p => pageCandidates (p.1 + 1) p.2)

/-- `FieldDetector._boxes_overlap` with its default threshold 0.5:
intersection area compared against both own areas; zero-area boxes never
overlap. -/
def boxesOverlap (box1 box2 : BBox) (threshold : ℚ := 1/2) : Bool :=
  let x1min := box1.x
  let x1max := box1.x + box1.width
  let y1min := box1.y
  let y1max := box1.y + box1.height
  let x2min := box2.x
  let x2max := box2.x + box2.width
  let y2min := box2.y
  let y2max := box2.y + box2.height
  let interX := max 0 (min x1max x2max - max x1min x2min)
  let interY := max 0 (min y1max y2max - max y1min y2min)
  let interArea := interX * interY
  let area1 := box1.width * box1.height
  let area2 := box2.width * box2.height
  if area1 = 0 ∨ area2 = 0 then false
  else decide (threshold < interArea / area1) || decide (threshold < interArea / area2)

/-- The sort key relation of `sorted(candidates, key=..., reverse=True)`:
`a` may come before `b` iff `a`'s detection confidence is at least `b`'s.
A stable sort with this relation is exactly Python's stable descending sort. -/
def confGE (a b : DetectedField) : Prop :=
  b.detectionConfidence ≤ a.detectionConfidence

instance : DecidableRel confGE := fun a b =>
  inferInstanceAs (Decidable (b.detectionConfidence ≤ a.detectionConfidence))

instance : IsTotal DetectedField confGE :=
  ⟨fun a b => le_total b.detectionConfidence a.detectionConfidence⟩

instance : IsTrans DetectedField confGE :=
  ⟨fun _ _ _ hab hbc => le_trans hbc hab⟩

/-- Stable sort by detection confidence, descending. -/
def sortByConfidenceDesc (l : List DetectedField) : List DetectedField :=
  List.insertionSort confGE l

/-- Does `candidate` significantly overlap some already-kept candidate on the
same page?  (The inner loop of `_deduplicate_candidates`.) -/
def overlapsAny (kept : List DetectedField) (candidate : DetectedField) : Bool :=
  kept.any (fun existing =>
    existing.pageNumber == candidate.pageNumber && boxesOverlap existing.bbox candidate.bbox)

/-- The accumulator walk of `_deduplicate_candidates`: keep a candidate iff it
overlaps no already-kept candidate on the same page. -/
def dedupLoop (kept : List DetectedField) : List DetectedField → List DetectedField
  | [] => kept
  | candidate :: rest =>
    if overlapsAny kept candidate then dedupLoop kept rest
    else dedupLoop (kept ++ [candidate]) rest

/-- `FieldDetector._deduplicate_candidates`. -/
def deduplicateCandidates (candidates : List DetectedField) : List DetectedField :=
  if candidates = [] then []
  else dedupLoop [] (sortByConfidenceDesc candidates)

/-- `settings.detection_confidence_threshold` (default 0.5 in
`app/core/config.py`). -/
def detectionConfidenceThreshold : ℚ := 1/2

/-- The pure core of `FieldDetector.detect_fields`, given the per-page data
gathered from the opened PDF and the measured wall time: gather candidates
from all strategies on all pages, deduplicate, filter by the confidence
threshold. -/
def detectFieldsCore (documentId : String) (pages : List Page) (detectionTimeMs : ℚ) :
    DetectionResult :=
  let allCandidates := allCandidatesOf pages
  let deduplicated := deduplicateCandidates allCandidates
  let filtered := deduplicated.filter
    (fun c => decide (detectionConfidenceThreshold ≤ c.detectionConfidence))
  { documentId := documentId,
    detectedFields := filtered,
    detectionTimeMs := detectionTimeMs,
    totalCandidates := allCandidates.length,
    filteredCandidates := filtered.length }

/-- Detection errors surfaced to the caller (spec section 7); the source's
`detect_fields` itself can only fail when the PDF library fails to open the
file. -/
inductive DetectionError where
  | PdfOpen
deriving DecidableEq, Repr

/-- `FieldDetector.detect_fields`: opening the PDF yields the page data
(`none` models an open failure, which propagates); the function performs no
validation of `document_id` before opening. -/
def detectFields (documentId : String) (pdf : Option (List Page)) (detectionTimeMs : ℚ) :
    Except DetectionError DetectionResult :=
  match pdf with
  | none => Except.error DetectionError.PdfOpen
  | some pages => Except.ok (detectFieldsCore documentId pages detectionTimeMs)

/-- Two candidates do not conflict when they are on different pages or their
boxes do not significantly overlap.  This is the relation the deduplicator
guarantees pairwise on its output. -/
def nonConflicting (a b : DetectedField) : Prop :=
  ¬(a.pageNumber = b.pageNumber ∧ boxesOverlap a.bbox b.bbox = true)

instance : DecidableRel nonConflicting := fun a b =>
  inferInstanceAs (Decidable (¬(a.pageNumber = b.pageNumber ∧ boxesOverlap a.bbox b.bbox = true)))

/-- The overlap test is symmetric in its two boxes. -/
lemma boxesOverlap_comm (a b : BBox) (t : ℚ) : boxesOverlap a b t = boxesOverlap b a t := by
  simp only [boxesOverlap]
  rw [min_comm (a.x + a.width), max_comm a.x, min_comm (a.y + a.height), max_comm a.y]
  by_cases h1 : a.width * a.height = 0 <;> by_cases h2 : b.width * b.height = 0 <;>
    simp [h1, h2, Bool.or_comm]

/-- `nonConflicting` is a symmetric relation. -/
lemma nonConflicting_symm : Symmetric nonConflicting := by
  intro a b h ⟨hp, ho⟩
  exact h ⟨hp.symm, by rw [boxesOverlap_comm] at ho; exact ho⟩

/-- `overlapsAny kept c` is false exactly when `c` conflicts with no member
of `kept`. -/
lemma overlapsAny_eq_false_iff (kept : List DetectedField) (c : DetectedField) :
    overlapsAny kept c = false ↔ ∀ e ∈ kept, nonConflicting e c := by
  rw [← Bool.not_eq_true, overlapsAny, List.any_eq_true]
  push_neg
  constructor
  · intro h e he ⟨hp, ho⟩
    exact h e he (by simp only [hp, beq_self_eq_true, Bool.true_and, ho])
  · intro h e he hb
    simp only [Bool.and_eq_true, beq_iff_eq] at hb
    exact h e he ⟨hb.1, hb.2⟩

/-- The freshly kept part of `dedupLoop`: the candidates added to `kept`. -/
def dedupFresh (kept : List DetectedField) : List DetectedField → List DetectedField
  | [] => []
  | candidate :: rest =>
    if overlapsAny kept candidate then dedupFresh kept rest
    else candidate :: dedupFresh (kept ++ [candidate]) rest

/-- `dedupLoop` returns the accumulator followed by the freshly kept part. -/
lemma dedupLoop_eq_append :
    ∀ (l kept : List DetectedField), dedupLoop kept l = kept ++ dedupFresh kept l
  | [], kept => by simp [dedupLoop, dedupFresh]
  | candidate :: rest, kept => by
    by_cases h : overlapsAny kept candidate
    · have ih := dedupLoop_eq_append rest kept
      simp [dedupLoop, dedupFresh, h, ih]
    · have ih := dedupLoop_eq_append rest (kept ++ [candidate])
      simp [dedupLoop, dedupFresh, h, ih]

/-- The freshly kept part is a sublist of the input. -/
lemma dedupFresh_sublist :
    ∀ (l kept : List DetectedField), List.Sublist (dedupFresh kept l) l
  | [], _ => by simp [dedupFresh]
  | candidate :: rest, kept => by
    by_cases h : overlapsAny kept candidate
    · simp only [dedupFresh, h, if_true]
      exact (dedupFresh_sublist rest kept).cons candidate
    · simp only [dedupFresh, h, if_false]
      exact (dedupFresh_sublist rest (kept ++ [candidate])).cons₂ candidate

/-- Running the fresh-keep walk again over its own output changes nothing. -/
lemma dedupFresh_idem :
    ∀ (l kept : List DetectedField), dedupFresh kept (dedupFresh kept l) = dedupFresh kept l
  | [], kept => by simp [dedupFresh]
  | candidate :: rest, kept => by
    by_cases h : overlapsAny kept candidate
    · simp only [dedupFresh, h, if_true]
      exact dedupFresh_idem rest kept
    · simp only [dedupFresh, h, if_false]
      exact congrArg (candidate :: ·) (dedupFresh_idem rest (kept ++ [candidate]))

/-- The deduplication walk preserves pairwise non-conflict of the accumulator. -/
lemma pairwise_dedupLoop :
    ∀ (l kept : List DetectedField), kept.Pairwise nonConflicting →
      (dedupLoop kept l).Pairwise nonConflicting
  | [], _, h => h
  | candidate :: rest, kept, h => by
    by_cases hov : overlapsAny kept candidate
    · simp only [dedupLoop, hov, if_true]
      exact pairwise_dedupLoop rest kept h
    · simp only [dedupLoop, hov, if_false]
      refine pairwise_dedupLoop rest (kept ++ [candidate]) ?_
      rw [List.pairwise_append]
      refine ⟨h, List.pairwise_singleton _ _, ?_⟩
      intro a ha b hb
      rw [List.mem_singleton] at hb
      rw [hb]
      have hov' : overlapsAny kept candidate = false := by simpa using hov
      exact (overlapsAny_eq_false_iff kept candidate).1 hov' a ha

/-- On a pairwise non-conflicting input (also non-conflicting with the
accumulator), the fresh-keep walk keeps everything. -/
lemma dedupFresh_of_pairwise :
    ∀ (l kept : List DetectedField), (kept ++ l).Pairwise nonConflicting →
      dedupFresh kept l = l
  | [], _, _ => by simp [dedupFresh]
  | candidate :: rest, kept, h => by
    have h' := h
    rw [List.pairwise_append] at h'
    have hov : overlapsAny kept candidate = false := by
      rw [overlapsAny_eq_false_iff]
      intro e he
      exact h'.2.2 e he candidate (List.mem_cons_self _ _)
    simp only [dedupFresh, hov, Bool.false_eq_true, if_false]
    refine congrArg (candidate :: ·) (dedupFresh_of_pairwise rest (kept ++ [candidate]) ?_)
    have : kept ++ candidate :: rest = (kept ++ [candidate]) ++ rest := by simp
    exact this ▸ h

/-- Every member of the deduplicator's output comes from its input. -/
lemma mem_of_mem_dedup {c : DetectedField} {candidates : List DetectedField}
    (h : c ∈ deduplicateCandidates candidates) : c ∈ candidates := by
  unfold deduplicateCandidates at h
  by_cases he : candidates = []
  · simp [he] at h
  · simp only [he, if_false] at h
    rw [dedupLoop_eq_append, List.nil_append] at h
    have := (dedupFresh_sublist (sortByConfidenceDesc candidates) []).mem h
    rw [sortByConfidenceDesc, List.mem_insertionSort] at this
    exact this

/-- C8.  The deduplicator is idempotent: deduplicating an already
deduplicated candidate list changes nothing, for every input list. -/
theorem dedup_idempotent (candidates : List DetectedField) :
    deduplicateCandidates (deduplicateCandidates candidates) = deduplicateCandidates candidates := by
  by_cases he : candidates = []
  · subst he
    simp [deduplicateCandidates]
  · have hK : deduplicateCandidates candidates = dedupFresh [] (sortByConfidenceDesc candidates) := by
      simp only [deduplicateCandidates, he, if_false]
      rw [dedupLoop_eq_append, List.nil_append]
    by_cases hKe : deduplicateCandidates candidates = []
    · rw [hKe]
      simp [deduplicateCandidates]
    · have hsub : List.Sublist (deduplicateCandidates candidates) (sortByConfidenceDesc candidates) := by
        rw [hK]
        exact dedupFresh_sublist _ _
      have hsorted : List.Sorted confGE (deduplicateCandidates candidates) :=
        List.Pairwise.sublist hsub (List.sorted_insertionSort confGE candidates)
      rw [deduplicateCandidates, if_neg hKe]
      rw [show sortByConfidenceDesc (deduplicateCandidates candidates) = deduplicateCandidates candidates
        from hsorted.insertionSort_eq]
      rw [dedupLoop_eq_append, List.nil_append]
      conv_lhs => rw [hK]
      rw [dedupFresh_idem]
      exact hK.symm

/-- C4.  Every output of the deduplicator is pairwise non-conflicting: no two
kept candidates on the same page overlap significantly; moreover a box of
zero area never overlaps any box significantly. -/
theorem dedup_output_no_significant_overlap (candidates : List DetectedField) :
    (deduplicateCandidates candidates).Pairwise nonConflicting
  ∧ ∀ (a b : BBox), a.width * a.height = 0 → boxesOverlap a b = false := by
  constructor
  · by_cases he : candidates = []
    · simp [deduplicateCandidates, he]
    · simp only [deduplicateCandidates, he, if_false]
      exact pairwise_dedupLoop _ [] List.Pairwise.nil
  · intro a b h
    simp [boxesOverlap, h]

/-- Witness for C4 at a concrete zero-area box. -/
theorem dedup_output_no_significant_overlap_witness :
    (BBox.mk 0 0 0 5).width * (BBox.mk 0 0 0 5).height = 0
  ∧ boxesOverlap ⟨0, 0, 0, 5⟩ ⟨0, 0, 3, 3⟩ = false :=
  ⟨by decide, (dedup_output_no_significant_overlap []).2 ⟨0, 0, 0, 5⟩ ⟨0, 0, 3, 3⟩ (by decide)⟩

/-- A low-confidence candidate whose box is far away from `cHigh`'s box. -/
def cLow : DetectedField :=
  { pageNumber := 1, bbox := ⟨0, 0, 10, 10⟩, fieldType := FieldType.TEXT,
    detectionConfidence := 1/2 }

/-- A high-confidence candidate whose box is far away from `cLow`'s box. -/
def cHigh : DetectedField :=
  { pageNumber := 1, bbox := ⟨100, 100, 10, 10⟩, fieldType := FieldType.TEXT,
    detectionConfidence := 9/10 }

/-- C3 counterexample.  A pairwise non-overlapping candidate list is NOT
returned unchanged in the same order: the deduplicator stable-sorts by
detection confidence descending first, so `[cLow, cHigh]` comes back as
`[cHigh, cLow]`. -/
theorem dedup_reorders_nonoverlapping :
    List.Pairwise nonConflicting [cLow, cHigh]
  ∧ deduplicateCandidates [cLow, cHigh] ≠ [cLow, cHigh] := by
  constructor
  · decide
  · decide

/-- C3 amended.  On a pairwise non-conflicting input the deduplicator keeps
every candidate, returning them stable-sorted by detection confidence
descending; if the input is moreover already so sorted, it is returned
unchanged. -/
theorem dedup_preserves_nonoverlapping (candidates : List DetectedField)
    (h : List.Pairwise nonConflicting candidates) :
    deduplicateCandidates candidates = sortByConfidenceDesc candidates
  ∧ (List.Sorted confGE candidates → deduplicateCandidates candidates = candidates) := by
  have hmain : deduplicateCandidates candidates = sortByConfidenceDesc candidates := by
    by_cases he : candidates = []
    · simp [deduplicateCandidates, he, sortByConfidenceDesc, List.insertionSort]
    · simp only [deduplicateCandidates, he, if_false]
      rw [dedupLoop_eq_append, List.nil_append]
      refine dedupFresh_of_pairwise _ [] ?_
      rw [List.nil_append]
      exact (List.Perm.pairwise_iff (fun hab => nonConflicting_symm hab)
        (List.perm_insertionSort confGE candidates)).2 h
  refine ⟨hmain, fun hs => ?_⟩
  rw [hmain, sortByConfidenceDesc, hs.insertionSort_eq]

/-- Witness for the amended C3 at a concrete sorted non-overlapping list. -/
theorem dedup_preserves_nonoverlapping_witness :
    List.Pairwise nonConflicting [cHigh, cLow]
  ∧ List.Sorted confGE [cHigh, cLow]
  ∧ deduplicateCandidates [cHigh, cLow] = [cHigh, cLow] :=
  ⟨by decide, by decide,
    (dedup_preserves_nonoverlapping [cHigh, cLow] (by decide)).2 (by decide)⟩

/-- The detected fields of the core result are the threshold filter of the
deduplicated candidates. -/
lemma detectFieldsCore_detectedFields (documentId : String) (pages : List Page) (t : ℚ) :
    (detectFieldsCore documentId pages t).detectedFields
      = (deduplicateCandidates (allCandidatesOf pages)).filter
          (fun c => decide (detectionConfidenceThreshold ≤ c.detectionConfidence)) := rfl

/-- The filtered count of the core result is the length of the kept fields. -/
lemma detectFieldsCore_filteredCandidates (documentId : String) (pages : List Page) (t : ℚ) :
    (detectFieldsCore documentId pages t).filteredCandidates
      = (detectFieldsCore documentId pages t).detectedFields.length := rfl

/-- The total count of the core result is the raw pre-dedup candidate count. -/
lemma detectFieldsCore_totalCandidates (documentId : String) (pages : List Page) (t : ℚ) :
    (detectFieldsCore documentId pages t).totalCandidates
      = (allCandidatesOf pages).length := rfl

/-- C5.  Every detected field of a detection result has detection confidence
at least the threshold (candidates below it are dropped by the filter), and
`filtered_candidates` equals the number of detected fields. -/
theorem detect_fields_confidence_filter (documentId : String) (pages : List Page) (t : ℚ) :
    ((detectFieldsCore documentId pages t).detectedFields.all
      (fun c => decide (detectionConfidenceThreshold ≤ c.detectionConfidence)) = true)
  ∧ (detectFieldsCore documentId pages t).filteredCandidates
      = (detectFieldsCore documentId pages t).detectedFields.length := by
  refine ⟨?_, rfl⟩
  rw [List.all_eq_true]
  intro c hc
  rw [detectFieldsCore_detectedFields, List.mem_filter] at hc
  exact hc.2

/-- Sorting preserves length. -/
lemma length_sortByConfidenceDesc (l : List DetectedField) :
    (sortByConfidenceDesc l).length = l.length :=
  (List.perm_insertionSort confGE l).length_eq

/-- The deduplicator never lengthens its input. -/
lemma dedup_length_le (candidates : List DetectedField) :
    (deduplicateCandidates candidates).length ≤ candidates.length := by
  by_cases he : candidates = []
  · simp [deduplicateCandidates, he]
  · simp only [deduplicateCandidates, he, if_false]
    rw [dedupLoop_eq_append, List.nil_append]
    calc (dedupFresh [] (sortByConfidenceDesc candidates)).length
        ≤ (sortByConfidenceDesc candidates).length :=
          (dedupFresh_sublist _ _).length_le
      _ = candidates.length := length_sortByConfidenceDesc _

/-- C10.  `total_candidates` is the raw number of candidates gathered from
all strategies before deduplication, and it dominates `filtered_candidates`:
deduplication and threshold filtering only remove candidates. -/
theorem total_candidates_dominates (documentId : String) (pages : List Page) (t : ℚ) :
    (detectFieldsCore documentId pages t).totalCandidates = (allCandidatesOf pages).length
  ∧ (detectFieldsCore documentId pages t).filteredCandidates
      ≤ (detectFieldsCore documentId pages t).totalCandidates := by
  refine ⟨rfl, ?_⟩
  rw [detectFieldsCore_filteredCandidates, detectFieldsCore_totalCandidates,
    detectFieldsCore_detectedFields]
  calc ((deduplicateCandidates (allCandidatesOf pages)).filter
          (fun c => decide (detectionConfidenceThreshold ≤ c.detectionConfidence))).length
      ≤ (deduplicateCandidates (allCandidatesOf pages)).length := List.length_filter_le _ _
    _ ≤ (allCandidatesOf pages).length := dedup_length_le _

/-- The sender invariant on one candidate: a sender-assigned candidate
carries no detected role key. -/
def senderRoleInvB (c : DetectedField) : Bool :=
  !(c.assigneeType == AssigneeType.SENDER) || c.detectedRoleKey.isNone

/-- The legacy role map sends `sender` (and only entries with owner
`SENDER`) to a null role key. -/
lemma legacyRoleMapGet_sender_inv (code : String) :
    (legacyRoleMapGet code).2 = FieldOwner.SENDER → (legacyRoleMapGet code).1 = none := by
  unfold legacyRoleMapGet
  cases hf : legacyRoleMap.find? (fun p => p.1 == code) with
  | none => intro h; simp at h
  | some pr =>
    have hm : pr ∈ legacyRoleMap := List.mem_of_find?_eq_some hf
    fin_cases hm <;> simp

/-- The legacy anchor candidate satisfies the sender invariant. -/
lemma senderInv_legacyAnchorCandidate (n : Nat) (m : AnchorMatch) (rect : Rect) :
    senderRoleInvB (legacyAnchorCandidate n m rect) = true := by
  unfold senderRoleInvB legacyAnchorCandidate
  by_cases h : (legacyRoleMapGet (lowerStr m.g2)).2 = FieldOwner.SENDER
  · have h1 := legacyRoleMapGet_sender_inv _ h
    simp [h, h1]
  · simp [h]

/-- Vector-underline candidates satisfy the sender invariant. -/
lemma senderInv_underlineVectorCandidate (n : Nat) (layout : Option PageLayout) (s e : Point) :
    ∀ c ∈ underlineVectorCandidate n layout s e, senderRoleInvB c = true := by
  simp only [underlineVectorCandidate]
  split_ifs <;> intro c hc <;> simp only [List.mem_singleton, List.not_mem_nil] at hc <;>
    (subst hc; rfl)

/-- Underscore-blank candidates satisfy the sender invariant. -/
lemma senderInv_underscoreCandidate (n : Nat) (line : LayoutLine) :
    ∀ c ∈ underscoreCandidate n line, senderRoleInvB c = true := by
  unfold underscoreCandidate
  cases underscoreRunStart line.text.data 0 with
  | none => intro c hc; simp at hc
  | some i =>
    intro c hc
    rw [List.mem_singleton] at hc
    subst hc; rfl

/-- All underline-strategy candidates satisfy the sender invariant. -/
lemma senderInv_detectUnderlines (n : Nat) (p : Page) :
    ∀ c ∈ detectUnderlines n p, senderRoleInvB c = true := by
  intro c hc
  unfold detectUnderlines at hc
  rw [List.mem_append] at hc
  rcases hc with hc | hc
  · rw [List.mem_flatMap] at hc
    obtain ⟨item, -, hc⟩ := hc
    exact senderInv_underlineVectorCandidate n p.layout item.1 item.2 c hc
  · cases hl : p.layout with
    | none => rw [hl] at hc; simp at hc
    | some layout =>
      rw [hl] at hc
      rw [List.mem_flatMap] at hc
      obtain ⟨line, -, hc⟩ := hc
      exact senderInv_underscoreCandidate n line c hc

/-- Small-square candidates satisfy the sender invariant. -/
lemma senderInv_checkboxRectCandidates (n : Nat) (orect : Option Rect) :
    ∀ c ∈ checkboxRectCandidates n orect, senderRoleInvB c = true := by
  unfold checkboxRectCandidates
  rcases orect with - | rect
  · intro c hc; simp at hc
  · intro c hc
    simp at hc
    obtain ⟨-, hc⟩ := hc
    subst hc; rfl

/-- Glyph candidates satisfy the sender invariant. -/
lemma senderInv_checkboxGlyphCandidates (n : Nat) (p : Page) (ch : String) :
    ∀ c ∈ checkboxGlyphCandidates n p ch, senderRoleInvB c = true := by
  unfold checkboxGlyphCandidates
  split_ifs <;> intro c hc
  · rw [List.mem_map] at hc
    obtain ⟨inst, -, hc⟩ := hc
    subst hc; rfl
  · simp at hc

/-- All checkbox-strategy candidates satisfy the sender invariant. -/
lemma senderInv_detectCheckboxes (n : Nat) (p : Page) :
    ∀ c ∈ detectCheckboxes n p, senderRoleInvB c = true := by
  intro c hc
  unfold detectCheckboxes at hc
  simp only [List.mem_append, List.mem_flatMap, List.mem_map] at hc
  rcases hc with (⟨r, -, hc⟩ | ⟨r, -, hc⟩) | ⟨ch, -, hc⟩
  · subst hc; rfl
  · exact senderInv_checkboxRectCandidates n r c hc
  · exact senderInv_checkboxGlyphCandidates n p ch c hc

/-- Signature-keyword candidates satisfy the sender invariant. -/
lemma senderInv_sigKeywordCandidates (n : Nat) (line : LayoutLine) :
    ∀ c ∈ sigKeywordCandidates n line, senderRoleInvB c = true := by
  simp only [sigKeywordCandidates]
  cases SIGNATURE_KEYWORDS.find? (fun keyword => strIn keyword (lowerStr line.text)) with
  | none => intro c hc; simp at hc
  | some k => intro c hc; rw [List.mem_singleton] at hc; subst hc; rfl

/-- Date-keyword candidates satisfy the sender invariant. -/
lemma senderInv_dateKeywordCandidates (n : Nat) (line : LayoutLine) :
    ∀ c ∈ dateKeywordCandidates n line, senderRoleInvB c = true := by
  simp only [dateKeywordCandidates]
  cases DATE_KEYWORDS.find? (fun keyword =>
      strIn keyword (lowerStr line.text) && !(strIn "signature" (lowerStr line.text))) with
  | none => intro c hc; simp at hc
  | some k => intro c hc; rw [List.mem_singleton] at hc; subst hc; rfl

/-- Initials-keyword candidates satisfy the sender invariant. -/
lemma senderInv_initialsKeywordCandidates (n : Nat) (line : LayoutLine) :
    ∀ c ∈ initialsKeywordCandidates n line, senderRoleInvB c = true := by
  simp only [initialsKeywordCandidates]
  cases INITIALS_KEYWORDS.find? (fun keyword => strIn keyword (lowerStr line.text)) with
  | none => intro c hc; simp at hc
  | some k => intro c hc; rw [List.mem_singleton] at hc; subst hc; rfl

/-- All keyword-strategy candidates satisfy the sender invariant. -/
lemma senderInv_detectSignatureAreas (n : Nat) (p : Page) :
    ∀ c ∈ detectSignatureAreas n p, senderRoleInvB c = true := by
  intro c hc
  unfold detectSignatureAreas at hc
  cases hl : p.layout with
  | none => rw [hl] at hc; simp at hc
  | some layout =>
    rw [hl] at hc
    rw [List.mem_flatMap] at hc
    obtain ⟨line, -, hc⟩ := hc
    unfold detectSignatureAreasLine at hc
    rw [List.mem_append, List.mem_append] at hc
    rcases hc with (hc | hc) | hc
    · exact senderInv_sigKeywordCandidates n line c hc
    · exact senderInv_dateKeywordCandidates n line c hc
    · exact senderInv_initialsKeywordCandidates n line c hc

/-- New-anchor emissions satisfy the sender invariant. -/
lemma senderInv_newAnchorEmission (n : Nat) (p : Page) (m : AnchorMatch) :
    ∀ c ∈ newAnchorEmission n p m, senderRoleInvB c = true := by
  unfold newAnchorEmission
  cases (searchFor p m.full).head? with
  | none => intro c hc; simp at hc
  | some rect => intro c hc; rw [List.mem_singleton] at hc; subst hc; rfl

/-- Legacy-anchor emissions satisfy the sender invariant. -/
lemma senderInv_legacyAnchorEmission (n : Nat) (p : Page) (m : AnchorMatch) :
    ∀ c ∈ legacyAnchorEmission n p m, senderRoleInvB c = true := by
  unfold legacyAnchorEmission
  split_ifs
  · intro c hc; simp at hc
  · cases (searchFor p m.full).head? with
    | none => intro c hc; simp at hc
    | some rect =>
      intro c hc
      rw [List.mem_singleton] at hc
      subst hc
      exact senderInv_legacyAnchorCandidate n m rect

/-- Sender-variable emissions satisfy the sender invariant. -/
lemma senderInv_varEmission (n : Nat) (p : Page) (m : VarMatch) :
    ∀ c ∈ varEmission n p m, senderRoleInvB c = true := by
  unfold varEmission
  cases (searchFor p m.full).head? with
  | none => intro c hc; simp at hc
  | some rect => intro c hc; rw [List.mem_singleton] at hc; subst hc; rfl

/-- All anchor-strategy candidates satisfy the sender invariant. -/
lemma senderInv_detectAnchorTags (n : Nat) (p : Page) :
    ∀ c ∈ detectAnchorTags n p, senderRoleInvB c = true := by
  intro c hc
  unfold detectAnchorTags at hc
  simp only [List.mem_append, List.mem_flatMap] at hc
  rcases hc with (⟨m, -, hc⟩ | ⟨m, -, hc⟩) | ⟨m, -, hc⟩
  · exact senderInv_newAnchorEmission n p m c hc
  · exact senderInv_legacyAnchorEmission n p m c hc
  · exact senderInv_varEmission n p m c hc

/-- Every raw candidate of the pipeline satisfies the sender invariant. -/
lemma senderInv_allCandidates (pages : List Page) :
    ∀ c ∈ allCandidatesOf pages, senderRoleInvB c = true := by
  intro c hc
  unfold allCandidatesOf at hc
  rw [List.mem_flatMap] at hc
  obtain ⟨p, _, hc⟩ := hc
  unfold pageCandidates at hc
  simp only [List.mem_append] at hc
  rcases hc with ((hc | hc) | hc) | hc
  · exact senderInv_detectUnderlines _ _ c hc
  · exact senderInv_detectCheckboxes _ _ c hc
  · exact senderInv_detectSignatureAreas _ _ c hc
  · exact senderInv_detectAnchorTags _ _ c hc

/-- C7.  In every detection result a sender-assigned candidate has a null
detected role key; in particular the legacy anchor role code `sender` and
every sender-variable candidate yield `SENDER` with a null role key. -/
theorem sender_implies_no_role (documentId : String) (pages : List Page) (t : ℚ) :
    ((detectFieldsCore documentId pages t).detectedFields.all senderRoleInvB = true)
  ∧ (∀ (n : Nat) (m : AnchorMatch) (rect : Rect), lowerStr m.g2 = "sender" →
       (legacyAnchorCandidate n m rect).assigneeType = AssigneeType.SENDER
     ∧ (legacyAnchorCandidate n m rect).detectedRoleKey = none)
  ∧ (∀ (n : Nat) (m : VarMatch) (rect : Rect),
       (varCandidate n m rect).assigneeType = AssigneeType.SENDER
     ∧ (varCandidate n m rect).detectedRoleKey = none) := by
  refine ⟨?_, ?_, ?_⟩
  · rw [List.all_eq_true]
    intro c hc
    rw [detectFieldsCore_detectedFields, List.mem_filter] at hc
    exact senderInv_allCandidates pages c (mem_of_mem_dedup hc.1)
  · intro n m rect h
    unfold legacyAnchorCandidate
    dsimp only
    rw [h]
    have hmap : legacyRoleMapGet "sender" = (none, FieldOwner.SENDER) := by decide
    rw [hmap]
    exact ⟨rfl, rfl⟩
  · intro n m rect
    exact ⟨rfl, rfl⟩

/-- The keyword-strategy parts of one line are `[]` or a singleton of the
category's field type (signature part). -/
lemma sigKeywordCandidates_cases (n : Nat) (line : LayoutLine) :
    sigKeywordCandidates n line = []
  ∨ ∃ c, sigKeywordCandidates n line = [c] ∧ c.fieldType = FieldType.SIGNATURE := by
  simp only [sigKeywordCandidates]
  cases SIGNATURE_KEYWORDS.find? (fun keyword => strIn keyword (lowerStr line.text)) with
  | none => exact Or.inl rfl
  | some k => exact Or.inr ⟨_, rfl, rfl⟩

/-- The keyword-strategy parts of one line are `[]` or a singleton of the
category's field type (date part). -/
lemma dateKeywordCandidates_cases (n : Nat) (line : LayoutLine) :
    dateKeywordCandidates n line = []
  ∨ ∃ c, dateKeywordCandidates n line = [c] ∧ c.fieldType = FieldType.DATE_SIGNED := by
  simp only [dateKeywordCandidates]
  cases DATE_KEYWORDS.find? (fun keyword =>
      strIn keyword (lowerStr line.text) && !(strIn "signature" (lowerStr line.text))) with
  | none => exact Or.inl rfl
  | some k => exact Or.inr ⟨_, rfl, rfl⟩

/-- The keyword-strategy parts of one line are `[]` or a singleton of the
category's field type (initials part). -/
lemma initialsKeywordCandidates_cases (n : Nat) (line : LayoutLine) :
    initialsKeywordCandidates n line = []
  ∨ ∃ c, initialsKeywordCandidates n line = [c] ∧ c.fieldType = FieldType.INITIALS := by
  simp only [initialsKeywordCandidates]
  cases INITIALS_KEYWORDS.find? (fun keyword => strIn keyword (lowerStr line.text)) with
  | none => exact Or.inl rfl
  | some k => exact Or.inr ⟨_, rfl, rfl⟩

/-- A line containing the substring `signature` emits no date candidate. -/
lemma dateKeywordCandidates_of_sig (n : Nat) (line : LayoutLine)
    (h : strIn "signature" (lowerStr line.text) = true) :
    dateKeywordCandidates n line = [] := by
  unfold dateKeywordCandidates
  dsimp only
  have hfind : DATE_KEYWORDS.find? (fun keyword =>
      strIn keyword (lowerStr line.text) && !(strIn "signature" (lowerStr line.text))) = none := by
    rw [List.find?_eq_none]
    intro k _
    simp [h]
  rw [hfind]

/-- The layout line of the C1 counterexample: it contains both a signature
keyword and an initials keyword. -/
def lineSigInit : LayoutLine := { text := "Signature Initial", bbox := ⟨0, 0, 50, 10⟩ }

/-- C1 counterexample.  A single layout line CAN yield candidates of two
different categories: the three keyword loops of the strategy run
independently, so the line `Signature Initial` emits both a signature
candidate and an initials candidate. -/
theorem keyword_line_two_categories :
    (detectSignatureAreasLine 1 lineSigInit).map (fun c => c.fieldType)
      = [FieldType.SIGNATURE, FieldType.INITIALS] := by
  decide

/-- C1 amended.  Per layout line, each category emits at most one candidate
(the first matching keyword of that category wins), at most three candidates
are emitted in total, and the date category is suppressed exactly when the
line contains the substring `signature`; but the signature, date and
initials scans are independent, so one line can emit candidates of two
different categories. -/
theorem keyword_line_per_category (n : Nat) (line : LayoutLine) :
    ((detectSignatureAreasLine n line).countP (fun c => c.fieldType == FieldType.SIGNATURE) ≤ 1)
  ∧ ((detectSignatureAreasLine n line).countP (fun c => c.fieldType == FieldType.INITIALS) ≤ 1)
  ∧ ((detectSignatureAreasLine n line).countP (fun c => c.fieldType == FieldType.DATE_SIGNED)
      ≤ if strIn "signature" (lowerStr line.text) then 0 else 1)
  ∧ (detectSignatureAreasLine n line).length ≤ 3 := by
  have hs := sigKeywordCandidates_cases n line
  have hi := initialsKeywordCandidates_cases n line
  by_cases hsig : strIn "signature" (lowerStr line.text) = true
  · have hd0 : dateKeywordCandidates n line = [] := dateKeywordCandidates_of_sig n line hsig
    rcases hs with hs | ⟨cs, hs, hts⟩ <;> rcases hi with hi | ⟨ci, hi, hti⟩ <;>
      simp [detectSignatureAreasLine, hs, hd0, hi, hsig, List.countP_append,
        List.countP_cons, *]
  · have hd := dateKeywordCandidates_cases n line
    rcases hs with hs | ⟨cs, hs, hts⟩ <;> rcases hd with hd | ⟨cd, hd, htd⟩ <;>
      rcases hi with hi | ⟨ci, hi, hti⟩ <;>
      simp [detectSignatureAreasLine, hs, hd, hi, hsig, List.countP_append,
        List.countP_cons, *]

/-- A page with no content at all. -/
def emptyPage : Page :=
  { layout := none, lineItems := [], checkboxWidgets := [], pathRects := [],
    text := "", searchResults := [], newAnchorMatches := [], legacyAnchorMatches := [],
    varMatches := [] }

/-- C2 counterexample.  `detect_fields` with an empty `document_id` does NOT
fail fast: it opens the PDF and produces a `DetectionResult` whose
`document_id` is the empty string. -/
theorem empty_document_id_not_rejected :
    detectFields "" (some [emptyPage]) 0
      = Except.ok { documentId := "", detectedFields := [], detectionTimeMs := 0,
                    totalCandidates := 0, filteredCandidates := 0 } := by
  rfl

/-- C2 amended.  `detect_fields` performs no validation of `document_id`:
with an empty `document_id` and an openable PDF it always returns a
`DetectionResult` whose `document_id` is the empty string. -/
theorem detect_fields_no_document_id_validation (pages : List Page) (t : ℚ) :
    ∃ r, detectFields "" (some pages) t = Except.ok r ∧ r.documentId = "" :=
  ⟨detectFieldsCore "" pages t, rfl, rfl⟩

/-- C6.  For every new role-anchor match whose rendered position is found by
page search, the anchor strategy emits a candidate with assignee `ROLE`,
role key the lowercased second group, field type from the anchor type map on
the lowercased first group (defaulting to `TEXT`), detection, classification
and role confidence all 0.95, bbox width 150 for `SIGNATURE`, 100 for
`NAME`, otherwise 80, and bbox height 40 for `SIGNATURE` or `INITIALS`,
otherwise 20. -/
theorem new_anchor_candidate_spec (n : Nat) (page : Page) (m : AnchorMatch) (rect : Rect)
    (hm : m ∈ page.newAnchorMatches) (hr : (searchFor page m.full).head? = some rect) :
    newAnchorCandidate n m rect ∈ detectAnchorTags n page
  ∧ (newAnchorCandidate n m rect).assigneeType = AssigneeType.ROLE
  ∧ (newAnchorCandidate n m rect).detectedRoleKey = some (lowerStr m.g2)
  ∧ (newAnchorCandidate n m rect).fieldType = typeMapGet (lowerStr m.g1)
  ∧ (typeMap.find? (fun p => p.1 == lowerStr m.g1) = none →
      (newAnchorCandidate n m rect).fieldType = FieldType.TEXT)
  ∧ (newAnchorCandidate n m rect).detectionConfidence = 19/20
  ∧ (newAnchorCandidate n m rect).classificationConfidence = 19/20
  ∧ (newAnchorCandidate n m rect).roleConfidence = 19/20
  ∧ (newAnchorCandidate n m rect).bbox.width
      = (if (newAnchorCandidate n m rect).fieldType = FieldType.SIGNATURE then 150
         else if (newAnchorCandidate n m rect).fieldType = FieldType.NAME then 100 else 80)
  ∧ (newAnchorCandidate n m rect).bbox.height
      = (if (newAnchorCandidate n m rect).fieldType = FieldType.SIGNATURE
            ∨ (newAnchorCandidate n m rect).fieldType = FieldType.INITIALS then 40 else 20) := by
  refine ⟨?_, rfl, rfl, rfl, ?_, rfl, rfl, rfl, rfl, rfl⟩
  · unfold detectAnchorTags
    rw [List.mem_append, List.mem_append]
    refine Or.inl (Or.inl ?_)
    rw [List.mem_flatMap]
    refine ⟨m, hm, ?_⟩
    unfold newAnchorEmission
    rw [hr]
    exact List.mem_singleton.mpr rfl
  · intro h
    show typeMapGet (lowerStr m.g1) = FieldType.TEXT
    unfold typeMapGet
    rw [h]
    rfl

/-- The concrete new-anchor match of the C6 witness: unknown field code
`foo`, mixed-case role key. -/
def anchorMatchW : AnchorMatch := ⟨"[foo|role:Client]", "foo", "Client"⟩

/-- The rendered rectangle of the C6 witness match. -/
def anchorRectW : Rect := ⟨10, 20, 90, 50⟩

/-- The page of the C6 witness: one new-anchor match with one search hit. -/
def anchorPageW : Page :=
  { layout := none, lineItems := [], checkboxWidgets := [], pathRects := [],
    text := "Please sign: [foo|role:Client]",
    searchResults := [("[foo|role:Client]", [anchorRectW])],
    newAnchorMatches := [anchorMatchW], legacyAnchorMatches := [], varMatches := [] }

/-- Witness for C6 at a concrete page and match. -/
theorem new_anchor_candidate_spec_witness :
    anchorMatchW ∈ anchorPageW.newAnchorMatches
  ∧ (searchFor anchorPageW anchorMatchW.full).head? = some anchorRectW
  ∧ newAnchorCandidate 1 anchorMatchW anchorRectW ∈ detectAnchorTags 1 anchorPageW
  ∧ (newAnchorCandidate 1 anchorMatchW anchorRectW).fieldType = FieldType.TEXT
  ∧ (newAnchorCandidate 1 anchorMatchW anchorRectW).detectedRoleKey = some "client" := by
  have h := new_anchor_candidate_spec 1 anchorPageW anchorMatchW anchorRectW (by decide) (by rfl)
  refine ⟨by decide, by rfl, h.1, h.2.2.2.2.1 (by decide), ?_⟩
  rw [h.2.2.1]
  decide

/-- C9.  A vector line primitive yields a candidate exactly when it is
horizontal (endpoint `y`s within 2 pt) and longer than 50 pt; the candidate
sits 15 pt above the line at the leftmost endpoint, 20 pt tall and as wide
as the line, with detection confidence 0.7 when a nearby label was found and
0.5 otherwise, and classification confidence 0.6 / 0.4 likewise. -/
theorem underline_vector_emission (n : Nat) (layout : Option PageLayout) (s e : Point) :
    (underlineVectorCandidate n layout s e ≠ [] ↔ (|e.y - s.y| < 2 ∧ 50 < |e.x - s.x|))
  ∧ ∀ c ∈ underlineVectorCandidate n layout s e,
      c.bbox = ⟨min s.x e.x, s.y - 15, |e.x - s.x|, 20⟩
    ∧ c.detectionConfidence
        = (if (findNearbyLabel layout s.x s.y |e.x - s.x|).1.isSome then 7/10 else 1/2)
    ∧ c.classificationConfidence
        = (if (findNearbyLabel layout s.x s.y |e.x - s.x|).1.isSome then 3/5 else 2/5) := by
  constructor
  · rw [abs_sub_comm e.y s.y]
    simp only [underlineVectorCandidate]
    split_ifs with h1 h2 h3
    · exact ⟨fun _ => ⟨h1, h2⟩, fun _ => List.cons_ne_nil _ _⟩
    · exact ⟨fun _ => ⟨h1, h2⟩, fun _ => List.cons_ne_nil _ _⟩
    · exact ⟨fun h => absurd rfl h, fun hx => absurd hx.2 h2⟩
    · exact ⟨fun h => absurd rfl h, fun hx => absurd hx.1 h1⟩
  · intro c hc
    simp only [underlineVectorCandidate] at hc
    split_ifs at hc with h1 h2 h3 <;>
      simp only [List.mem_singleton, List.not_mem_nil] at hc <;>
      (subst hc; refine ⟨rfl, ?_, ?_⟩ <;> simp [h3])

/-- The candidate emitted by the C9 witness line. -/
def underlineCandW : DetectedField :=
  { pageNumber := 1, bbox := ⟨0, -15, 60, 20⟩, fieldType := FieldType.TEXT,
    owner := some FieldOwner.SIGNER_1, detectionConfidence := 1/2,
    classificationConfidence := 2/5, ownerConfidence := 1/2,
    evidence := "Underline detected (no label)", label := none, nearbyText := none }

/-- Witness for C9 at a concrete horizontal 60 pt line with no layout. -/
theorem underline_vector_emission_witness :
    underlineCandW ∈ underlineVectorCandidate 1 none ⟨0, 0⟩ ⟨60, 0⟩
  ∧ underlineCandW.bbox = ⟨min (0:ℚ) 60, 0 - 15, |(60:ℚ) - 0|, 20⟩ := by
  refine ⟨by decide, ?_⟩
  exact ((underline_vector_emission 1 none ⟨0, 0⟩ ⟨60, 0⟩).2 underlineCandW (by decide)).1

/-- Witness for C7 at a concrete legacy `sender` anchor match. -/
theorem sender_implies_no_role_witness :
    lowerStr "sender" = "sender"
  ∧ (legacyAnchorCandidate 1 ⟨"[sig|sender]", "sig", "sender"⟩ ⟨0, 0, 1, 1⟩).assigneeType
      = AssigneeType.SENDER
  ∧ (legacyAnchorCandidate 1 ⟨"[sig|sender]", "sig", "sender"⟩ ⟨0, 0, 1, 1⟩).detectedRoleKey
      = none :=
  ⟨by decide,
   ((sender_implies_no_role "" [] 0).2.1 1 ⟨"[sig|sender]", "sig", "sender"⟩ ⟨0, 0, 1, 1⟩
     (by decide)).1,
   ((sender_implies_no_role "" [] 0).2.1 1 ⟨"[sig|sender]", "sig", "sender"⟩ ⟨0, 0, 1, 1⟩
     (by decide)).2⟩

end Esign
